import Mathlib

/-!
Shallow embedding of the ecommerce-server backend (Express + Prisma).

The data model follows prisma/schema.prisma: Product, Cart, CartProduct
(with a unique (cartId, productId) pair constraint and no uniqueness on
Cart.buyerId).  The operations embed the controller functions
(getCart, addToCart, clearCart, removeFromCart, editProduct,
deleteProduct, addProduct) and the verifyToken middleware.  Monetary
values are rationals; JavaScript toFixed(2) is modelled as half-up
rounding to two decimal places.  The database is a record of lists of
rows plus autoincrement counters; Prisma findFirst is List.find? in
insertion order, create appends, update/deleteMany map/filter.
-/

/-- A Product row (schema.prisma, model Product). -/
structure Product where
  id : Nat
  name : String
  category : String
  description : String
  price : ℚ
  discount : ℚ
  sellerId : Nat
  deriving Repr, DecidableEq

/-- A Cart row (schema.prisma, model Cart).  Note: buyerId carries no
unique constraint in the schema. -/
structure Cart where
  id : Nat
  buyerId : Nat
  deriving Repr, DecidableEq

/-- A CartProduct row (schema.prisma, model CartProduct); the schema
declares a unique constraint on the (cartId, productId) pair. -/
structure CartProduct where
  id : Nat
  cartId : Nat
  productId : Nat
  quantity : Int
  deriving Repr, DecidableEq

/-- The relational store: the rows of each table plus autoincrement
counters for primary keys. -/
structure DB where
  products : List Product
  carts : List Cart
  cartProducts : List CartProduct
  nextProductId : Nat
  nextCartId : Nat
  nextCartProductId : Nat
  deriving Repr, DecidableEq

/-- The empty database: no rows, autoincrement counters start at 1. -/
def DB.empty : DB := ⟨[], [], [], 1, 1, 1⟩

/-- Half-up rounding to two decimal places, the model of
JavaScript Number.prototype.toFixed(2) on non-negative amounts. -/
def round2 (q : ℚ) : ℚ := (⌊q * 100 + 1 / 2⌋ : ℚ) / 100

/-- prisma.cart.findFirst on buyerId: first Cart row in insertion
order whose buyerId matches. -/
def findFirstCart (db : DB) (buyerId : Nat) : Option Cart :=
  db.carts.find? (fun c => c.buyerId == buyerId)

/-- prisma.cartProduct.findUnique on the cartId_productId pair. -/
def findUniqueCartProduct (db : DB) (cartId productId : Nat) : Option CartProduct :=
  db.cartProducts.find? (fun l => l.cartId == cartId && l.productId == productId)

/-- prisma.product.findUnique on id. -/
def findUniqueProduct (db : DB) (id : Nat) : Option Product :=
  db.products.find? (fun p => p.id == id)

/-- prisma.cart.create: appends a Cart row with the next autoincrement
id and returns it together with the new store. -/
def createCart (db : DB) (buyerId : Nat) : Cart × DB :=
  let c : Cart := ⟨db.nextCartId, buyerId⟩
  (c, { db with carts := db.carts ++ [c], nextCartId := db.nextCartId + 1 })

/-- prisma.cartProduct.create data: appends a CartProduct row with the
next autoincrement id. -/
def createCartProduct (db : DB) (cartId productId : Nat) (quantity : Int) :
    CartProduct × DB :=
  let l : CartProduct := ⟨db.nextCartProductId, cartId, productId, quantity⟩
  (l, { db with cartProducts := db.cartProducts ++ [l],
                nextCartProductId := db.nextCartProductId + 1 })

/-- prisma.cartProduct.update on id, setting quantity. -/
def updateCartProductQty (db : DB) (id : Nat) (quantity : Int) : DB :=
  { db with cartProducts :=
      db.cartProducts.map (fun l => if l.id == id then { l with quantity := quantity } else l) }

/-- One valued line of the getCart response body. -/
structure LineView where
  productId : Nat
  name : String
  category : String
  price : ℚ
  discount : ℚ
  quantity : Int
  totalCost : ℚ
  deriving Repr, DecidableEq

/-- The per-line valuation of getCart (buyerController.getCart):
discountAmount and priceAfterDiscount are each put through toFixed(2)
before the multiplication by quantity, and the line total is rounded
again. -/
def lineTotalCost (price discount : ℚ) (quantity : Int) : ℚ :=
  let discountAmount := round2 (price * discount / 100)
  let priceAfterDiscount := round2 (price - discountAmount)
  round2 (priceAfterDiscount * (quantity : ℚ))

/-- The per-line valuation as the spec words it (for comparison with
the source's lineTotalCost): the discount amount is subtracted exactly
and only the final line total is rounded. -/
def lineTotalCostSpec (price discount : ℚ) (quantity : Int) : ℚ :=
  round2 ((price - price * discount / 100) * (quantity : ℚ))

/-- Outcome of getCart: 404 when no Cart row matches the buyer,
otherwise the valued lines and the aggregate total. -/
inductive GetCartResult where
  | notFound
  | ok (products : List LineView) (totalValue : ℚ)
  deriving Repr, DecidableEq

/-- buyerController.getCart: findFirst the buyer's cart (404 if none),
join each of its CartProduct rows with its Product, value each line,
and sum the already-rounded line totals through one more toFixed(2). -/
def getCart (db : DB) (buyerId : Nat) : GetCartResult :=
  match findFirstCart db buyerId with
  | none => .notFound
  | some cart =>
    let items := db.cartProducts.filter (fun l => l.cartId == cart.id)
    let views := items.filterMap (fun l =>
      (findUniqueProduct db l.productId).map (fun p =>
        LineView.mk l.productId p.name p.category p.price p.discount l.quantity
          (lineTotalCost p.price p.discount l.quantity)))
    .ok views (round2 (views.map (fun v => v.totalCost)).sum)

/-- Outcome of addToCart: 400 invalid input, 200 quantity merged into
an existing line, 201 new line created, or 500 when a storage call
throws (for example connecting a line to a productId that references
no Product row, or writing a NaN quantity). -/
inductive AddResult where
  | invalidInput
  | updated (line : CartProduct)
  | created (line : CartProduct)
  | internalError
  deriving Repr, DecidableEq

/-- The request-body validation at the top of addToCart:
`!productId || quantity <= 0`.  productId is falsy when absent or 0;
an absent quantity does not satisfy `quantity <= 0` in JavaScript, so
it passes the check. -/
def addToCartInvalid (productId : Option Nat) (quantity : Option Int) : Bool :=
  productId.getD 0 == 0 ||
    (match quantity with
     | some q => q ≤ 0
     | none => false)

/-- The JavaScript `quantity || 1` applied when a new line is
created: 1 when the quantity is absent (or the falsy 0). -/
def jsQtyOrOne (quantity : Option Int) : Int :=
  match quantity with
  | some q => if q == 0 then 1 else q
  | none => 1

/-- The tail of addToCart once the buyer's cart is resolved: find the
(cart, product) line; if present, add the requested quantity onto it
(an absent quantity makes the sum NaN, which the Int column rejects:
500); if absent, create a line with quantity `quantity || 1`, provided
the productId connects to an existing Product row (500 otherwise). -/
def addToCartLine (db1 : DB) (cart : Cart) (pid : Nat)
    (quantity : Option Int) : AddResult × DB :=
  match findUniqueCartProduct db1 cart.id pid with
  | some existing =>
    match quantity with
    | some q =>
      (.updated { existing with quantity := existing.quantity + q },
       updateCartProductQty db1 existing.id (existing.quantity + q))
    | none => (.internalError, db1)
  | none =>
    if (findUniqueProduct db1 pid).isSome then
      (.created (createCartProduct db1 cart.id pid (jsQtyOrOne quantity)).1,
       (createCartProduct db1 cart.id pid (jsQtyOrOne quantity)).2)
    else (.internalError, db1)

/-- buyerController.addToCart: validate the body, find the buyer's
cart or create one when none exists, then merge or create the line
(addToCartLine).  The store state at each failure point is kept: there
is no surrounding transaction, so a cart created before a later
failing call persists. -/
def addToCart (db : DB) (buyerId : Nat) (productId : Option Nat)
    (quantity : Option Int) : AddResult × DB :=
  if addToCartInvalid productId quantity then
    (.invalidInput, db)
  else
    match findFirstCart db buyerId with
    | some c => addToCartLine db c (productId.getD 0) quantity
    | none =>
      addToCartLine (createCart db buyerId).2 (createCart db buyerId).1
        (productId.getD 0) quantity

/-- Outcome of clearCart: 404 when the buyer has no Cart row,
otherwise the deleteMany count. -/
inductive ClearResult where
  | notFound
  | cleared (count : Nat)
  deriving Repr, DecidableEq

/-- buyerController.clearCart: findFirst the buyer's cart (404 if
none), then deleteMany the CartProduct rows of that cart and answer
with their count.  The Cart row itself is not touched. -/
def clearCart (db : DB) (buyerId : Nat) : ClearResult × DB :=
  match findFirstCart db buyerId with
  | none => (.notFound, db)
  | some cart =>
    let removed := db.cartProducts.filter (fun l => l.cartId == cart.id)
    (.cleared removed.length,
     { db with cartProducts := db.cartProducts.filter (fun l => !(l.cartId == cart.id)) })

/-- Outcome of removeFromCart: deleteMany count, 404 when zero. -/
inductive RemoveResult where
  | notFound
  | removed (count : Nat)
  deriving Repr, DecidableEq

/-- buyerController.removeFromCart: deleteMany CartProduct rows whose
productId matches and whose cart belongs to the buyer; 404 when the
count is zero. -/
def removeFromCart (db : DB) (buyerId productId : Nat) : RemoveResult × DB :=
  let belongs : CartProduct → Bool := fun l =>
    l.productId == productId &&
      (db.carts.any (fun c => c.id == l.cartId && c.buyerId == buyerId))
  let count := (db.cartProducts.filter belongs).length
  if count == 0 then (.notFound, db)
  else (.removed count,
        { db with cartProducts := db.cartProducts.filter (fun l => !(belongs l)) })

/-- The request body of PUT /api/products/:id; absent fields are none.
JavaScript `x || fallback` keeps the fallback for every falsy supplied
value: the empty string for string fields, 0 for numeric fields. -/
structure EditBody where
  name : Option String
  category : Option String
  description : Option String
  price : Option ℚ
  discount : Option ℚ
  deriving Repr, DecidableEq

/-- `v || old` for a string field: old when v is absent or empty. -/
def jsOrString (v : Option String) (old : String) : String :=
  match v with
  | some s => if s == "" then old else s
  | none => old

/-- `v || old` for a numeric field: old when v is absent or 0. -/
def jsOrNum (v : Option ℚ) (old : ℚ) : ℚ :=
  match v with
  | some x => if x == 0 then old else x
  | none => old

/-- Outcome of editProduct / deleteProduct: 404, 403, or 200 with the
affected product. -/
inductive ProductMutResult where
  | notFound
  | forbidden
  | ok (p : Product)
  deriving Repr, DecidableEq

/-- productController.editProduct: findUnique the product (404 if
none), refuse with 403 when its sellerId is not the caller, else
update each field through `supplied || existing`. -/
def editProduct (db : DB) (sellerId : Nat) (id : Nat) (body : EditBody) :
    ProductMutResult × DB :=
  match findUniqueProduct db id with
  | none => (.notFound, db)
  | some existing =>
    if existing.sellerId != sellerId then (.forbidden, db)
    else
      let updated : Product :=
        { existing with
          name := jsOrString body.name existing.name
          category := jsOrString body.category existing.category
          description := jsOrString body.description existing.description
          price := jsOrNum body.price existing.price
          discount := jsOrNum body.discount existing.discount }
      (.ok updated,
       { db with products :=
           db.products.map (fun p => if p.id == id then updated else p) })

/-- productController.deleteProduct: findUnique the product (404 if
none), refuse with 403 when its sellerId is not the caller, else
delete it; the schema cascades the delete to CartProduct rows that
reference it. -/
def deleteProduct (db : DB) (sellerId : Nat) (id : Nat) :
    ProductMutResult × DB :=
  match findUniqueProduct db id with
  | none => (.notFound, db)
  | some existing =>
    if existing.sellerId != sellerId then (.forbidden, db)
    else
      (.ok existing,
       { db with
           products := db.products.filter (fun p => !(p.id == id)),
           cartProducts := db.cartProducts.filter (fun l => !(l.productId == id)) })

/-- productController.addProduct: create a Product row with the next
autoincrement id, owned by the caller. -/
def addProduct (db : DB) (sellerId : Nat)
    (name category description : String) (price discount : ℚ) :
    Product × DB :=
  let p : Product := ⟨db.nextProductId, name, category, description, price, discount, sellerId⟩
  (p, { db with products := db.products ++ [p], nextProductId := db.nextProductId + 1 })

/-- What jwt.verify makes of the Authorization header: the header (or
its token part) is absent, the token fails verification (malformed,
bad signature, or expired — jwt.verify reports all of these through
its error argument), or it decodes to an id and role claim. -/
inductive Token where
  | absent
  | bad
  | good (id : Nat) (role : String)
  deriving Repr, DecidableEq

/-- Outcome of the verifyToken middleware, together with the HTTP
status it writes. -/
inductive GuardResult where
  | noToken
  | invalidToken
  | accessDenied
  | allowed (id : Nat) (role : String)
  deriving Repr, DecidableEq

/-- The HTTP status verifyToken answers with in each outcome. -/
def GuardResult.status : GuardResult → Nat
  | .noToken => 401
  | .invalidToken => 403
  | .accessDenied => 403
  | .allowed _ _ => 200

/-- middlewares/verifyToken.js: 401 when no token is presented, 403
when jwt.verify fails (invalid or expired token), 403 when a required
role is set and the decoded role differs, else pass the decoded user
through. -/
def verifyToken (requiredRole : Option String) (tok : Token) : GuardResult :=
  match tok with
  | .absent => .noToken
  | .bad => .invalidToken
  | .good id role =>
    match requiredRole with
    | some r => if role != r then .accessDenied else .allowed id role
    | none => .allowed id role

/-- The states the store can reach from empty through the controller
operations (sequential requests). -/
inductive Reachable : DB → Prop where
  | empty : Reachable DB.empty
  | addProduct (db : DB) (sellerId : Nat) (name category description : String)
      (price discount : ℚ) : Reachable db →
      Reachable (addProduct db sellerId name category description price discount).2
  | editProduct (db : DB) (sellerId id : Nat) (body : EditBody) : Reachable db →
      Reachable (editProduct db sellerId id body).2
  | deleteProduct (db : DB) (sellerId id : Nat) : Reachable db →
      Reachable (deleteProduct db sellerId id).2
  | addToCart (db : DB) (buyerId : Nat) (productId : Option Nat)
      (quantity : Option Int) : Reachable db →
      Reachable (addToCart db buyerId productId quantity).2
  | removeFromCart (db : DB) (buyerId productId : Nat) : Reachable db →
      Reachable (removeFromCart db buyerId productId).2
  | clearCart (db : DB) (buyerId : Nat) : Reachable db →
      Reachable (clearCart db buyerId).2

/-- C6 counterexample: a present-but-invalid (or expired) token is
answered with HTTP 403, not the 401 the claim requires for every
missing, invalid or expired token. -/
theorem C6_invalid_token_gets_403 :
    (verifyToken (some ("buyer")) Token.bad).status = 403 ∧
    (verifyToken (some ("buyer")) Token.bad).status ≠ 401 := by
  exact ⟨rfl, by decide⟩

/-- C6 (amended): the guard yields 401 exactly when the token is
missing; a token that fails jwt.verify (invalid or expired) yields
403, and a valid token yields 403 exactly when its role claim differs
from the required role. -/
theorem C6_guard_statuses (requiredRole : String) (tok : Token) :
    ((verifyToken (some requiredRole) tok).status = 401 ↔ tok = Token.absent) ∧
    (verifyToken (some requiredRole) tok = GuardResult.invalidToken ↔ tok = Token.bad) ∧
    ((verifyToken (some requiredRole) tok).status = 403 ↔
      tok = Token.bad ∨ ∃ id role, tok = Token.good id role ∧ role ≠ requiredRole) := by
  cases tok with
  | absent => simp [verifyToken, GuardResult.status]
  | bad => simp [verifyToken, GuardResult.status]
  | good id role =>
    by_cases h : role = requiredRole <;>
      simp [verifyToken, GuardResult.status, h]
    exact ⟨id, role, ⟨rfl, rfl⟩, h⟩

/-- C7: for an existing product whose sellerId differs from the
caller, editProduct and deleteProduct answer Forbidden and leave the
whole store unchanged — the ownership check precedes any mutation. -/
theorem C7_ownership_checked_before_mutation (db : DB) (sellerId pid : Nat)
    (body : EditBody) (p : Product)
    (hfind : findUniqueProduct db pid = some p)
    (hown : p.sellerId ≠ sellerId) :
    editProduct db sellerId pid body = (ProductMutResult.forbidden, db) ∧
    deleteProduct db sellerId pid = (ProductMutResult.forbidden, db) := by
  unfold editProduct deleteProduct
  rw [hfind]
  simp [hown]

/-- The store backing the C7 witness: one product owned by seller 2. -/
def ownershipDB : DB := (addProduct DB.empty 2 ("w") ("c") ("d") 5 0).2

/-- C7 witness: seller 1 is refused on seller 2's product and the
store is untouched. -/
theorem C7_ownership_witness :
    editProduct ownershipDB 1 1 ⟨none, none, none, none, none⟩ =
      (ProductMutResult.forbidden, ownershipDB) ∧
    deleteProduct ownershipDB 1 1 = (ProductMutResult.forbidden, ownershipDB) :=
  C7_ownership_checked_before_mutation ownershipDB 1 1 ⟨none, none, none, none, none⟩
    ⟨1, ("w"), ("c"), ("d"), 5, 0, 2⟩ (by decide) (by decide)

/-- C10: editProduct keeps the stored value of every field whose
supplied value is falsy — absent, the empty string, or 0 — so a
non-zero price or discount can never be lowered to 0 through it. -/
theorem C10_falsy_fields_retained (db : DB) (sellerId pid : Nat) (body : EditBody)
    (p pnew : Product) (dbnew : DB)
    (hfind : findUniqueProduct db pid = some p)
    (hres : editProduct db sellerId pid body = (ProductMutResult.ok pnew, dbnew)) :
    ((body.price = some 0 ∨ body.price = none) → pnew.price = p.price) ∧
    ((body.discount = some 0 ∨ body.discount = none) → pnew.discount = p.discount) ∧
    ((body.name = some ("") ∨ body.name = none) → pnew.name = p.name) ∧
    ((body.category = some ("") ∨ body.category = none) → pnew.category = p.category) ∧
    ((body.description = some ("") ∨ body.description = none) →
      pnew.description = p.description) ∧
    (pnew.price = 0 → p.price = 0) ∧
    (pnew.discount = 0 → p.discount = 0) := by
  unfold editProduct at hres
  rw [hfind] at hres
  by_cases hown : p.sellerId = sellerId
  · simp [hown] at hres
    obtain ⟨hp, -⟩ := hres
    subst hp
    refine ⟨?_, ?_, ?_, ?_, ?_, ?_, ?_⟩
    · rintro (h | h) <;> simp [jsOrNum, h]
    · rintro (h | h) <;> simp [jsOrNum, h]
    · rintro (h | h) <;> simp [jsOrString, h]
    · rintro (h | h) <;> simp [jsOrString, h]
    · rintro (h | h) <;> simp [jsOrString, h]
    · cases hbp : body.price with
      | none => simp [jsOrNum, hbp]
      | some x =>
        by_cases hx : x = 0 <;> simp [jsOrNum, hbp, hx]
    · cases hbd : body.discount with
      | none => simp [jsOrNum, hbd]
      | some x =>
        by_cases hx : x = 0 <;> simp [jsOrNum, hbd, hx]
  · simp [hown] at hres

/-- The store backing the C10 witness: one product owned by seller 1
with price 5 and discount 2. -/
def falsyEditDB : DB := (addProduct DB.empty 1 ("w") ("c") ("d") 5 2).2

/-- C10 witness: supplying price 0 and discount 0 leaves the stored
price 5 and discount 2 in place. -/
theorem C10_falsy_fields_witness :
    ((some (0 : ℚ) = some 0 ∨ (some (0 : ℚ)) = none) →
      (Product.mk 1 ("w") ("c") ("d") 5 2 1).price =
        (Product.mk 1 ("w") ("c") ("d") 5 2 1).price) ∧
    ((some (0 : ℚ) = some 0 ∨ (some (0 : ℚ)) = none) →
      (Product.mk 1 ("w") ("c") ("d") 5 2 1).discount =
        (Product.mk 1 ("w") ("c") ("d") 5 2 1).discount) ∧
    (((none : Option String) = some ("") ∨ (none : Option String) = none) →
      (Product.mk 1 ("w") ("c") ("d") 5 2 1).name =
        (Product.mk 1 ("w") ("c") ("d") 5 2 1).name) ∧
    (((none : Option String) = some ("") ∨ (none : Option String) = none) →
      (Product.mk 1 ("w") ("c") ("d") 5 2 1).category =
        (Product.mk 1 ("w") ("c") ("d") 5 2 1).category) ∧
    (((none : Option String) = some ("") ∨ (none : Option String) = none) →
      (Product.mk 1 ("w") ("c") ("d") 5 2 1).description =
        (Product.mk 1 ("w") ("c") ("d") 5 2 1).description) ∧
    ((Product.mk 1 ("w") ("c") ("d") 5 2 1).price = 0 →
      (Product.mk 1 ("w") ("c") ("d") 5 2 1).price = 0) ∧
    ((Product.mk 1 ("w") ("c") ("d") 5 2 1).discount = 0 →
      (Product.mk 1 ("w") ("c") ("d") 5 2 1).discount = 0) :=
  C10_falsy_fields_retained falsyEditDB 1 1 ⟨none, none, none, some 0, some 0⟩
    (Product.mk 1 ("w") ("c") ("d") 5 2 1)
    (Product.mk 1 ("w") ("c") ("d") 5 2 1)
    falsyEditDB (by decide) (by decide)

/-- C8: clearCart answers NotFound exactly when the buyer has no Cart
row (and then changes nothing); with a cart it answers the count of
that cart's lines (0 for an already-empty cart, not an error), deletes
exactly those lines, and keeps the Cart row itself. -/
theorem C8_clearCart_behaviour (db : DB) (buyerId : Nat) :
    ((clearCart db buyerId).1 = ClearResult.notFound ↔
      ∀ c ∈ db.carts, c.buyerId ≠ buyerId) ∧
    ((clearCart db buyerId).1 = ClearResult.notFound → (clearCart db buyerId).2 = db) ∧
    (∀ cart, findFirstCart db buyerId = some cart →
      (clearCart db buyerId).1 =
        ClearResult.cleared (db.cartProducts.filter (fun l => l.cartId == cart.id)).length ∧
      (clearCart db buyerId).2.carts = db.carts ∧
      ((clearCart db buyerId).2.cartProducts.filter (fun l => l.cartId == cart.id)) = [] ∧
      (clearCart db buyerId).2.cartProducts =
        db.cartProducts.filter (fun l => !(l.cartId == cart.id)) ∧
      (db.cartProducts.filter (fun l => l.cartId == cart.id) = [] →
        (clearCart db buyerId).1 = ClearResult.cleared 0)) := by
  cases hc : findFirstCart db buyerId with
  | none =>
    have hall := List.find?_eq_none.mp hc
    refine ⟨?_, ?_, ?_⟩
    · simp only [clearCart, hc]
      constructor
      · intro _ c hcmem
        have := hall c hcmem
        simpa using this
      · intro _; trivial
    · intro _; simp [clearCart, hc]
    · intro cart hcart; cases hcart
  | some cart0 =>
    have hmem : cart0 ∈ db.carts := List.mem_of_find?_eq_some hc
    have hbuyer : cart0.buyerId = buyerId := by
      have := List.find?_some hc
      simpa using this
    refine ⟨?_, ?_, ?_⟩
    · simp only [clearCart, hc]
      constructor
      · intro hfalse; cases hfalse
      · intro hall; exact absurd hbuyer (hall cart0 hmem)
    · intro hfalse; simp [clearCart, hc] at hfalse
    · intro cart hcart
      injection hcart with hcc
      subst hcc
      refine ⟨by simp [clearCart, hc], by simp [clearCart, hc], ?_,
        by simp [clearCart, hc], ?_⟩
      · simp only [clearCart, hc]
        rw [List.filter_filter]
        have hpred : (fun (l : CartProduct) =>
            (l.cartId == cart0.id) && !(l.cartId == cart0.id)) = fun _ => false := by
          funext l; cases h : (l.cartId == cart0.id) <;> simp [h]
        rw [hpred]
        exact List.filter_false _
      · intro hempty
        simp [clearCart, hc, hempty]

/-- The addToCart body validation holds exactly for a missing or falsy
productId or a supplied non-positive quantity; whether the productId
references an existing Product row plays no part in it. -/
theorem addToCartInvalid_iff (productId : Option Nat) (quantity : Option Int) :
    addToCartInvalid productId quantity = true ↔
      productId = none ∨ productId = some 0 ∨ ∃ q, quantity = some q ∧ q ≤ 0 := by
  cases productId <;> cases quantity <;> simp [addToCartInvalid]

/-- A line reported as created by addToCartLine carries the quantity
`quantity || 1`. -/
theorem addToCartLine_created_quantity (db1 : DB) (cart : Cart) (pid : Nat)
    (quantity : Option Int) (line : CartProduct)
    (h : (addToCartLine db1 cart pid quantity).1 = AddResult.created line) :
    line.quantity = jsQtyOrOne quantity := by
  unfold addToCartLine at h
  split at h
  · split at h
    · cases h
    · cases h
  · split at h
    · injection h with hl
      subst hl
      rfl
    · cases h

/-- addToCartLine never answers InvalidInput: the input validation
all happens before the cart is resolved. -/
theorem addToCartLine_ne_invalid (db1 : DB) (cart : Cart) (pid : Nat)
    (quantity : Option Int) :
    (addToCartLine db1 cart pid quantity).1 ≠ AddResult.invalidInput := by
  unfold addToCartLine
  split
  · split <;> simp
  · split <;> simp

/-- A line reported as created by an addToCart call whose quantity
was omitted carries the default quantity 1. -/
theorem addToCart_created_default_one (db : DB) (buyerId : Nat) (pid : Option Nat)
    (line : CartProduct)
    (h : (addToCart db buyerId pid none).1 = AddResult.created line) :
    line.quantity = 1 := by
  unfold addToCart at h
  split at h
  · cases h
  · split at h
    · exact addToCartLine_created_quantity _ _ _ _ _ h
    · exact addToCartLine_created_quantity _ _ _ _ _ h

/-- C3 counterexample: a productId that references no existing product
passes the body validation and the failure surfaces as a 500 Internal
error from the storage layer, not as the 400 InvalidInput the claim
requires. -/
theorem C3_nonexistent_product_not_invalid :
    (addToCart DB.empty 1 (some 5) (some 1)).1 = AddResult.internalError ∧
    (addToCart DB.empty 1 (some 5) (some 1)).1 ≠ AddResult.invalidInput := by
  decide

/-- C3 (amended): addToCart answers InvalidInput exactly when the
productId is missing (or the falsy 0) or the quantity is supplied and
non-positive; a productId referencing no product is not part of the
validation (it fails later as Internal), and a call that creates a new
line with the quantity omitted creates it with quantity 1. -/
theorem C3_invalid_input_exactly (db : DB) (buyerId : Nat)
    (productId : Option Nat) (quantity : Option Int) :
    ((addToCart db buyerId productId quantity).1 = AddResult.invalidInput ↔
      productId = none ∨ productId = some 0 ∨ ∃ q, quantity = some q ∧ q ≤ 0) ∧
    (∀ line, quantity = none →
      (addToCart db buyerId productId quantity).1 = AddResult.created line →
      line.quantity = 1) := by
  constructor
  · rw [← addToCartInvalid_iff productId quantity]
    constructor
    · intro hres
      by_contra hg
      have hg' : addToCartInvalid productId quantity = false := by
        cases hgb : addToCartInvalid productId quantity
        · rfl
        · exact absurd hgb hg
      unfold addToCart at hres
      rw [hg'] at hres
      simp only [Bool.false_eq_true, if_false] at hres
      split at hres
      · exact addToCartLine_ne_invalid _ _ _ _ hres
      · exact addToCartLine_ne_invalid _ _ _ _ hres
    · intro hg
      unfold addToCart
      rw [hg]
      rfl
  · intro line hq hres
    subst hq
    exact addToCart_created_default_one db buyerId productId line hres

/-- C9: when a buyer with no cart calls addToCart with a positive
quantity and a productId referencing no product, the call fails
(Internal) but the cart row created on the way persists: getCart
afterwards sees an existing empty cart (zero total), not NotFound —
the error path is not atomic. -/
theorem C9_failed_add_leaves_empty_cart (db : DB) (buyerId pid : Nat) (q : Int)
    (hq : 0 < q) (hpid : pid ≠ 0)
    (hnocart : findFirstCart db buyerId = none)
    (hnoprod : findUniqueProduct db pid = none)
    (hfresh : ∀ l ∈ db.cartProducts, l.cartId ≠ db.nextCartId) :
    (addToCart db buyerId (some pid) (some q)).1 = AddResult.internalError ∧
    findFirstCart (addToCart db buyerId (some pid) (some q)).2 buyerId =
      some ⟨db.nextCartId, buyerId⟩ ∧
    getCart (addToCart db buyerId (some pid) (some q)).2 buyerId =
      GetCartResult.ok [] 0 := by
  have hguard : addToCartInvalid (some pid) (some q) = false := by
    simp [addToCartInvalid, hpid]
    omega
  have hnoline : findUniqueCartProduct (createCart db buyerId).2
      (createCart db buyerId).1.id pid = none := by
    apply List.find?_eq_none.mpr
    intro l hl
    have hne := hfresh l hl
    simp [createCart] at hl ⊢
    intro hcid
    exact absurd hcid hne
  have hnoprod2 : findUniqueProduct (createCart db buyerId).2 pid = none := hnoprod
  have hred : addToCart db buyerId (some pid) (some q) =
      (AddResult.internalError, (createCart db buyerId).2) := by
    simp only [addToCart, hguard, Bool.false_eq_true, if_false, hnocart,
      Option.getD_some, addToCartLine, hnoline, hnoprod2, Option.isSome_none]
  have hfc2 : findFirstCart (createCart db buyerId).2 buyerId =
      some ⟨db.nextCartId, buyerId⟩ := by
    simp only [findFirstCart, createCart]
    rw [List.find?_append]
    rw [show db.carts.find? (fun c => c.buyerId == buyerId) = none from hnocart]
    simp [List.find?]
  have hitems : (createCart db buyerId).2.cartProducts.filter
      (fun l => l.cartId == db.nextCartId) = [] := by
    rw [List.filter_eq_nil_iff]
    intro l hl
    have hne := hfresh l (by simpa [createCart] using hl)
    simp [hne]
  refine ⟨by rw [hred], by rw [hred]; exact hfc2, ?_⟩
  rw [hred]
  simp only [getCart, hfc2]
  rw [hitems]
  simp [round2]
  norm_num

/-- C9 witness: from the empty store, buyer 1 adding missing product 5
gets a 500 yet ends up with an empty cart that getCart then sees. -/
theorem C9_failed_add_witness :
    (addToCart DB.empty 1 (some 5) (some 1)).1 = AddResult.internalError ∧
    findFirstCart (addToCart DB.empty 1 (some 5) (some 1)).2 1 =
      some ⟨DB.empty.nextCartId, 1⟩ ∧
    getCart (addToCart DB.empty 1 (some 5) (some 1)).2 1 =
      GetCartResult.ok [] 0 :=
  C9_failed_add_leaves_empty_cart DB.empty 1 5 1 (by decide) (by decide)
    (by decide) (by decide) (by decide)

/-- addToCart for a buyer with no cart, a valid body and an existing
product: a cart and a line are created, the line carrying
`quantity || 1`. -/
theorem addToCart_first_add (db : DB) (buyerId pid : Nat) (q : Option Int) (p : Product)
    (hguard : addToCartInvalid (some pid) q = false)
    (hnocart : findFirstCart db buyerId = none)
    (hfresh : ∀ l ∈ db.cartProducts, l.cartId ≠ db.nextCartId)
    (hprod : findUniqueProduct db pid = some p) :
    addToCart db buyerId (some pid) q =
      (AddResult.created ⟨db.nextCartProductId, db.nextCartId, pid, jsQtyOrOne q⟩,
       { db with
           carts := db.carts ++ [⟨db.nextCartId, buyerId⟩],
           nextCartId := db.nextCartId + 1,
           cartProducts :=
             db.cartProducts ++ [⟨db.nextCartProductId, db.nextCartId, pid, jsQtyOrOne q⟩],
           nextCartProductId := db.nextCartProductId + 1 }) := by
  have hnoline : findUniqueCartProduct (createCart db buyerId).2
      (createCart db buyerId).1.id pid = none := by
    apply List.find?_eq_none.mpr
    intro l hl
    have hne := hfresh l (by simpa [createCart] using hl)
    simp [createCart]
    intro hcid
    exact absurd hcid hne
  have hprod2 : findUniqueProduct (createCart db buyerId).2 pid = some p := hprod
  simp only [addToCart, hguard, Bool.false_eq_true, if_false, hnocart,
    Option.getD_some]
  unfold addToCartLine
  rw [hnoline, hprod2]
  simp [createCartProduct, createCart]

/-- addToCart for a buyer whose cart exists but holds no line for the
product, with a valid body and an existing product: one new line is
appended, carrying `quantity || 1`. -/
theorem addToCart_new_line (db : DB) (buyerId pid : Nat) (q : Option Int)
    (c : Cart) (p : Product)
    (hguard : addToCartInvalid (some pid) q = false)
    (hcart : findFirstCart db buyerId = some c)
    (hnoline : findUniqueCartProduct db c.id pid = none)
    (hprod : findUniqueProduct db pid = some p) :
    addToCart db buyerId (some pid) q =
      (AddResult.created ⟨db.nextCartProductId, c.id, pid, jsQtyOrOne q⟩,
       { db with
           cartProducts :=
             db.cartProducts ++ [⟨db.nextCartProductId, c.id, pid, jsQtyOrOne q⟩],
           nextCartProductId := db.nextCartProductId + 1 }) := by
  simp only [addToCart, hguard, Bool.false_eq_true, if_false, hcart,
    Option.getD_some, addToCartLine, hnoline, hprod, Option.isSome_some, if_true,
    createCartProduct]

/-- addToCart for a buyer whose cart already holds a line for the
product: the line is found and its quantity incremented in place. -/
theorem addToCart_increment (db : DB) (buyerId pid : Nat) (q : Int)
    (c : Cart) (l : CartProduct)
    (hguard : addToCartInvalid (some pid) (some q) = false)
    (hcart : findFirstCart db buyerId = some c)
    (hline : findUniqueCartProduct db c.id pid = some l) :
    addToCart db buyerId (some pid) (some q) =
      (AddResult.updated { l with quantity := l.quantity + q },
       updateCartProductQty db l.id (l.quantity + q)) := by
  simp only [addToCart, hguard, Bool.false_eq_true, if_false, hcart,
    Option.getD_some, addToCartLine, hline]

/-- find? over a list extended with one matching element, when nothing
in the prefix matches. -/
theorem find?_append_singleton {α : Type} (l : List α) (p : α → Bool) (a : α)
    (hl : l.find? p = none) (ha : p a = true) :
    (l ++ [a]).find? p = some a := by
  rw [List.find?_append, hl]
  simp [List.find?, ha]

/-- A created line witnesses that its product exists in the store. -/
theorem addToCartLine_created_product_exists (db1 : DB) (cart : Cart)
    (pid : Nat) (qty : Option Int) (line : CartProduct)
    (h : (addToCartLine db1 cart pid qty).1 = AddResult.created line) :
    ∃ p, findUniqueProduct db1 pid = some p := by
  unfold addToCartLine at h
  split at h
  · split at h <;> cases h
  · split at h
    · rename_i hsome
      exact Option.isSome_iff_exists.mp hsome
    · cases h

/-- C4: getCart answers NotFound exactly when no Cart row exists for
the buyer; a cart row with no lines yields the empty list and zero
total; and after one successful first add the response holds exactly
one line — NoCart and CartEmpty are observably distinct. -/
theorem C4_getCart_distinguishes_states (db : DB) (buyerId : Nat) :
    (getCart db buyerId = GetCartResult.notFound ↔ ∀ c ∈ db.carts, c.buyerId ≠ buyerId) ∧
    (∀ cart, findFirstCart db buyerId = some cart →
      db.cartProducts.filter (fun l => l.cartId == cart.id) = [] →
      getCart db buyerId = GetCartResult.ok [] 0) ∧
    (∀ pid q line db2,
      findFirstCart db buyerId = none →
      (∀ l ∈ db.cartProducts, l.cartId ≠ db.nextCartId) →
      addToCart db buyerId (some pid) (some q) = (AddResult.created line, db2) →
      ∃ v : LineView, getCart db2 buyerId = GetCartResult.ok [v] (round2 v.totalCost) ∧
        v.productId = pid ∧ v.quantity = line.quantity) := by
  refine ⟨?_, ?_, ?_⟩
  · cases hfc : findFirstCart db buyerId with
    | none =>
      have hall := List.find?_eq_none.mp hfc
      simp only [getCart, hfc]
      constructor
      · intro _ c hcmem
        simpa using hall c hcmem
      · intro _; trivial
    | some c =>
      have hmem : c ∈ db.carts := List.mem_of_find?_eq_some hfc
      have hbuyer : c.buyerId = buyerId := by simpa using List.find?_some hfc
      simp only [getCart, hfc]
      constructor
      · intro hfalse; cases hfalse
      · intro hall; exact absurd hbuyer (hall c hmem)
  · intro cart hcart hempty
    simp only [getCart, hcart]
    rw [hempty]
    simp [round2]
    norm_num
  · intro pid q line db2 hnocart hfresh hadd
    by_cases hg : addToCartInvalid (some pid) (some q) = true
    · unfold addToCart at hadd
      rw [hg] at hadd
      simp at hadd
    · have hg' : addToCartInvalid (some pid) (some q) = false :=
        Bool.not_eq_true _ ▸ Bool.of_not_eq_true hg
      have hadd1 : (addToCart db buyerId (some pid) (some q)).1 =
          AddResult.created line := by rw [hadd]
      have hline1 : (addToCartLine (createCart db buyerId).2 (createCart db buyerId).1
          pid (some q)).1 = AddResult.created line := by
        have : addToCart db buyerId (some pid) (some q) =
            addToCartLine (createCart db buyerId).2 (createCart db buyerId).1
              pid (some q) := by
          simp only [addToCart, hg', Bool.false_eq_true, if_false, hnocart,
            Option.getD_some]
        rw [this] at hadd1
        exact hadd1
      obtain ⟨p, hp⟩ := addToCartLine_created_product_exists _ _ _ _ _ hline1
      have hp' : findUniqueProduct db pid = some p := hp
      have hexp := addToCart_first_add db buyerId pid (some q) p hg' hnocart hfresh hp'
      rw [hexp] at hadd
      injection hadd with ha hb
      injection ha with hl
      subst hl
      subst hb
      refine ⟨⟨pid, p.name, p.category, p.price, p.discount, jsQtyOrOne (some q),
        lineTotalCost p.price p.discount (jsQtyOrOne (some q))⟩, ?_, rfl, rfl⟩
      have hfc2 : findFirstCart
          { db with
              carts := db.carts ++ [⟨db.nextCartId, buyerId⟩],
              nextCartId := db.nextCartId + 1,
              cartProducts := db.cartProducts ++
                [⟨db.nextCartProductId, db.nextCartId, pid, jsQtyOrOne (some q)⟩],
              nextCartProductId := db.nextCartProductId + 1 } buyerId =
          some ⟨db.nextCartId, buyerId⟩ :=
        find?_append_singleton db.carts _ _ hnocart (by simp)
      have hfilterold : db.cartProducts.filter
          (fun l => l.cartId == db.nextCartId) = [] :=
        List.filter_eq_nil_iff.mpr (fun l hl => by simp [hfresh l hl])
      simp only [getCart, hfc2]
      rw [List.filter_append, hfilterold]
      have hfind : List.find? (fun pr => pr.id == pid) db.products = some p := hp'
      simp [findUniqueProduct, hfind]

/-- A store with one product priced 10 at a 1.23 percent discount and
a cart holding 10 of it: the source's intermediate rounding makes the
line total 98.80 where rounding only the final product gives 98.77. -/
def roundingDB : DB :=
  { products := [⟨1, ("w"), ("c"), ("d"), 10, 123/100, 1⟩],
    carts := [⟨1, 1⟩],
    cartProducts := [⟨1, 1, 1, 10⟩],
    nextProductId := 2, nextCartId := 2, nextCartProductId := 2 }

/-- C2 counterexample: getCart rounds the discount amount and the
discounted unit price to 2 decimals before multiplying by the
quantity, so the line total 98.80 differs from the claim's
round2(unitPriceAfterDiscount * quantity) = 98.77. -/
theorem C2_per_line_rounding_counterexample :
    getCart roundingDB 1 =
      GetCartResult.ok [⟨1, ("w"), ("c"), 10, 123/100, 10, 494/5⟩] (494/5) ∧
    lineTotalCostSpec 10 (123/100) 10 = 9877/100 ∧
    (494/5 : ℚ) ≠ 9877/100 := by
  refine ⟨?_, ?_, by norm_num⟩
  · simp [getCart, findFirstCart, findUniqueProduct, roundingDB, List.find?,
      List.filter, lineTotalCost]
    norm_num [round2]
  · norm_num [lineTotalCostSpec, round2]

/-- C2 (amended): every line of a getCart response is valued by the
source's per-line formula — discount amount and discounted unit price
each rounded to 2 decimals before the multiplication by quantity — the
aggregate is round2 of the sum of the already-rounded line totals, and
the spec's example price=100, discount=10, quantity=2 gives 180. -/
theorem C2_valuation_per_line (db : DB) (buyerId : Nat)
    (views : List LineView) (total : ℚ)
    (h : getCart db buyerId = GetCartResult.ok views total) :
    (∀ v ∈ views, ∃ l ∈ db.cartProducts, ∃ p,
      findUniqueProduct db l.productId = some p ∧
      v.productId = l.productId ∧ v.quantity = l.quantity ∧
      v.price = p.price ∧ v.discount = p.discount ∧
      v.totalCost = lineTotalCost p.price p.discount l.quantity) ∧
    total = round2 (views.map (fun v => v.totalCost)).sum ∧
    lineTotalCost 100 10 2 = 180 := by
  unfold getCart at h
  cases hfc : findFirstCart db buyerId with
  | none => rw [hfc] at h; cases h
  | some cart =>
    rw [hfc] at h
    injection h with hviews htotal
    subst hviews
    subst htotal
    refine ⟨?_, rfl, ?_⟩
    · intro v hv
      obtain ⟨l, hl, hfl⟩ := List.mem_filterMap.mp hv
      have hlmem : l ∈ db.cartProducts := (List.mem_filter.mp hl).1
      obtain ⟨p, hp, hgv⟩ := Option.map_eq_some'.mp hfl
      refine ⟨l, hlmem, p, hp, ?_⟩
      rw [← hgv]
      exact ⟨rfl, rfl, rfl, rfl, rfl⟩
    · norm_num [lineTotalCost, round2]

/-- The spec's worked valuation example: one product at price 100 with
a 10 percent discount, two units in the cart. -/
def specExampleDB : DB :=
  { products := [⟨1, ("w"), ("c"), ("d"), 100, 10, 1⟩],
    carts := [⟨1, 1⟩],
    cartProducts := [⟨1, 1, 1, 2⟩],
    nextProductId := 2, nextCartId := 2, nextCartProductId := 2 }

/-- C2 witness: the valuation characterization applied to the spec's
own example, giving the 180.00 line total. -/
theorem C2_valuation_witness :
    (∀ v ∈ [(⟨1, ("w"), ("c"), 100, 10, 2, 180⟩ : LineView)],
      ∃ l ∈ specExampleDB.cartProducts, ∃ p,
      findUniqueProduct specExampleDB l.productId = some p ∧
      v.productId = l.productId ∧ v.quantity = l.quantity ∧
      v.price = p.price ∧ v.discount = p.discount ∧
      v.totalCost = lineTotalCost p.price p.discount l.quantity) ∧
    (180 : ℚ) =
      round2 (([(⟨1, ("w"), ("c"), 100, 10, 2, 180⟩ : LineView)]).map
        (fun v => v.totalCost)).sum ∧
    lineTotalCost 100 10 2 = 180 :=
  C2_valuation_per_line specExampleDB 1 [⟨1, ("w"), ("c"), 100, 10, 2, 180⟩] 180 (by
    simp [getCart, findFirstCart, findUniqueProduct, specExampleDB, List.find?,
      List.filter, lineTotalCost]
    norm_num [round2])

/-- No two CartProduct rows of the store agree on the (cartId,
productId) pair unless they are the same row — the schema's unique
constraint, and C1's defining invariant. -/
def linesPairUnique (db : DB) : Prop :=
  ∀ l1 ∈ db.cartProducts, ∀ l2 ∈ db.cartProducts,
    l1.cartId = l2.cartId → l1.productId = l2.productId → l1 = l2

/-- The integrity properties the controller operations maintain on the
store: one cart per buyer, autoincrement ids fresh, lines referencing
live carts, positive product ids, and the unique line pair. -/
structure DBInv (db : DB) : Prop where
  oneCartPerBuyer : ∀ c1 ∈ db.carts, ∀ c2 ∈ db.carts, c1.buyerId = c2.buyerId → c1 = c2
  cartIdLt : ∀ c ∈ db.carts, c.id < db.nextCartId
  lineIdLt : ∀ l ∈ db.cartProducts, l.id < db.nextCartProductId
  lineCartLive : ∀ l ∈ db.cartProducts, ∃ c ∈ db.carts, c.id = l.cartId
  prodIdPos : ∀ p ∈ db.products, 0 < p.id
  nextProdPos : 1 ≤ db.nextProductId
  pairUnique : linesPairUnique db

/-- The empty store satisfies the integrity properties. -/
theorem dbInv_empty : DBInv DB.empty := by
  constructor <;> simp [DB.empty, linesPairUnique]

/-- addProduct preserves the integrity properties. -/
theorem dbInv_addProduct (db : DB) (sellerId : Nat)
    (name category description : String) (price discount : ℚ) (h : DBInv db) :
    DBInv (addProduct db sellerId name category description price discount).2 := by
  obtain ⟨h1, h2, h3, h4, h5, h6, h7⟩ := h
  refine ⟨h1, h2, h3, h4, ?_, ?_, h7⟩
  · intro p hp
    simp [addProduct] at hp
    rcases hp with hp | hp
    · exact h5 p hp
    · subst hp; exact h6
  · simp [addProduct]

/-- editProduct preserves the integrity properties. -/
theorem dbInv_editProduct (db : DB) (sellerId id : Nat) (body : EditBody)
    (h : DBInv db) : DBInv (editProduct db sellerId id body).2 := by
  obtain ⟨h1, h2, h3, h4, h5, h6, h7⟩ := h
  unfold editProduct
  cases hf : findUniqueProduct db id with
  | none => exact ⟨h1, h2, h3, h4, h5, h6, h7⟩
  | some existing =>
    by_cases hown : existing.sellerId != sellerId
    · simp only [hown, if_true]
      exact ⟨h1, h2, h3, h4, h5, h6, h7⟩
    · simp only [hown, if_false]
      refine ⟨h1, h2, h3, h4, ?_, h6, h7⟩
      intro p hp
      obtain ⟨a, ha, hpa⟩ := List.mem_map.mp hp
      by_cases hid : (a.id == id) = true
      · rw [if_pos hid] at hpa
        subst hpa
        have hex : existing ∈ db.products := List.mem_of_find?_eq_some hf
        exact h5 existing hex
      · rw [if_neg hid] at hpa
        subst hpa
        exact h5 a ha

/-- deleteProduct preserves the integrity properties. -/
theorem dbInv_deleteProduct (db : DB) (sellerId id : Nat) (h : DBInv db) :
    DBInv (deleteProduct db sellerId id).2 := by
  obtain ⟨h1, h2, h3, h4, h5, h6, h7⟩ := h
  unfold deleteProduct
  cases hf : findUniqueProduct db id with
  | none => exact ⟨h1, h2, h3, h4, h5, h6, h7⟩
  | some existing =>
    by_cases hown : existing.sellerId != sellerId
    · simp only [hown, if_true]
      exact ⟨h1, h2, h3, h4, h5, h6, h7⟩
    · simp only [hown, if_false]
      refine ⟨h1, h2, ?_, ?_, ?_, h6, ?_⟩
      · intro l hl
        exact h3 l (List.mem_of_mem_filter hl)
      · intro l hl
        exact h4 l (List.mem_of_mem_filter hl)
      · intro p hp
        exact h5 p (List.mem_of_mem_filter hp)
      · intro l1 hl1 l2 hl2
        exact h7 l1 (List.mem_of_mem_filter hl1) l2 (List.mem_of_mem_filter hl2)

/-- removeFromCart preserves the integrity properties. -/
theorem dbInv_removeFromCart (db : DB) (buyerId productId : Nat) (h : DBInv db) :
    DBInv (removeFromCart db buyerId productId).2 := by
  obtain ⟨h1, h2, h3, h4, h5, h6, h7⟩ := h
  unfold removeFromCart
  by_cases hz : ((db.cartProducts.filter (fun l =>
      l.productId == productId &&
        (db.carts.any (fun c => c.id == l.cartId && c.buyerId == buyerId)))).length == 0) = true
  · simp only [hz, if_true]
    exact ⟨h1, h2, h3, h4, h5, h6, h7⟩
  · simp only [hz, if_false]
    refine ⟨h1, h2, ?_, ?_, h5, h6, ?_⟩
    · intro l hl
      exact h3 l (List.mem_of_mem_filter hl)
    · intro l hl
      exact h4 l (List.mem_of_mem_filter hl)
    · intro l1 hl1 l2 hl2
      exact h7 l1 (List.mem_of_mem_filter hl1) l2 (List.mem_of_mem_filter hl2)

/-- clearCart preserves the integrity properties. -/
theorem dbInv_clearCart (db : DB) (buyerId : Nat) (h : DBInv db) :
    DBInv (clearCart db buyerId).2 := by
  obtain ⟨h1, h2, h3, h4, h5, h6, h7⟩ := h
  unfold clearCart
  cases hf : findFirstCart db buyerId with
  | none => exact ⟨h1, h2, h3, h4, h5, h6, h7⟩
  | some cart =>
    refine ⟨h1, h2, ?_, ?_, h5, h6, ?_⟩
    · intro l hl
      exact h3 l (List.mem_of_mem_filter hl)
    · intro l hl
      exact h4 l (List.mem_of_mem_filter hl)
    · intro l1 hl1 l2 hl2
      exact h7 l1 (List.mem_of_mem_filter hl1) l2 (List.mem_of_mem_filter hl2)

/-- createCart preserves the integrity properties when the buyer has
no cart yet (the only state the controller calls it in). -/
theorem dbInv_createCart (db : DB) (buyerId : Nat) (h : DBInv db)
    (hnone : findFirstCart db buyerId = none) :
    DBInv (createCart db buyerId).2 := by
  obtain ⟨h1, h2, h3, h4, h5, h6, h7⟩ := h
  have hall : ∀ c ∈ db.carts, c.buyerId ≠ buyerId := by
    intro c hc
    have := List.find?_eq_none.mp hnone c hc
    simpa using this
  refine ⟨?_, ?_, h3, ?_, h5, h6, h7⟩
  · intro c1 hc1 c2 hc2 hbe
    simp only [createCart, List.mem_append, List.mem_singleton] at hc1 hc2
    rcases hc1 with hc1 | hc1 <;> rcases hc2 with hc2 | hc2
    · exact h1 c1 hc1 c2 hc2 hbe
    · subst hc2
      exact absurd hbe (hall c1 hc1)
    · subst hc1
      exact absurd hbe.symm (hall c2 hc2)
    · subst hc1; subst hc2; rfl
  · intro c hc
    simp only [createCart, List.mem_append, List.mem_singleton] at hc
    simp only [createCart]
    rcases hc with hc | hc
    · exact Nat.lt_succ_of_lt (h2 c hc)
    · subst hc; exact Nat.lt_succ_self _
  · intro l hl
    obtain ⟨c, hc, hcl⟩ := h4 l hl
    exact ⟨c, by simp [createCart, hc], hcl⟩

/-- addToCartLine preserves the integrity properties when called on a
cart of the store. -/
theorem dbInv_addToCartLine (db : DB) (c : Cart) (pid : Nat) (qty : Option Int)
    (h : DBInv db) (hc : c ∈ db.carts) :
    DBInv (addToCartLine db c pid qty).2 := by
  obtain ⟨h1, h2, h3, h4, h5, h6, h7⟩ := h
  unfold addToCartLine
  cases hfind : findUniqueCartProduct db c.id pid with
  | some existing =>
    cases qty with
    | none => exact ⟨h1, h2, h3, h4, h5, h6, h7⟩
    | some q =>
      refine ⟨h1, h2, ?_, ?_, h5, h6, ?_⟩
      · intro l hl
        obtain ⟨a, ha, hla⟩ := List.mem_map.mp hl
        have : l.id = a.id := by
          rw [← hla]; by_cases hid : (a.id == existing.id) = true <;> simp [hid]
        rw [this]
        exact h3 a ha
      · intro l hl
        obtain ⟨a, ha, hla⟩ := List.mem_map.mp hl
        have : l.cartId = a.cartId := by
          rw [← hla]; by_cases hid : (a.id == existing.id) = true <;> simp [hid]
        rw [this]
        exact h4 a ha
      · intro l1 hl1 l2 hl2 hcid hpid
        obtain ⟨a1, ha1, hla1⟩ := List.mem_map.mp hl1
        obtain ⟨a2, ha2, hla2⟩ := List.mem_map.mp hl2
        have hpair1 : l1.cartId = a1.cartId ∧ l1.productId = a1.productId ∧
            l1.id = a1.id := by
          rw [← hla1]; by_cases hid : (a1.id == existing.id) = true <;> simp [hid]
        have hpair2 : l2.cartId = a2.cartId ∧ l2.productId = a2.productId ∧
            l2.id = a2.id := by
          rw [← hla2]; by_cases hid : (a2.id == existing.id) = true <;> simp [hid]
        have ha12 : a1 = a2 := by
          apply h7 a1 ha1 a2 ha2
          · rw [← hpair1.1, ← hpair2.1, hcid]
          · rw [← hpair1.2.1, ← hpair2.2.1, hpid]
        rw [← hla1, ← hla2, ha12]
  | none =>
    by_cases hprod : (findUniqueProduct db pid).isSome = true
    · simp only [hprod, if_true]
      have hnomatch : ∀ l ∈ db.cartProducts,
          ¬(l.cartId = c.id ∧ l.productId = pid) := by
        intro l hl hcontra
        have := List.find?_eq_none.mp hfind l hl
        simp [hcontra.1, hcontra.2] at this
      refine ⟨h1, h2, ?_, ?_, h5, h6, ?_⟩
      · intro l hl
        simp only [createCartProduct, List.mem_append, List.mem_singleton] at hl
        simp only [createCartProduct]
        rcases hl with hl | hl
        · exact Nat.lt_succ_of_lt (h3 l hl)
        · subst hl; exact Nat.lt_succ_self _
      · intro l hl
        simp only [createCartProduct, List.mem_append, List.mem_singleton] at hl
        rcases hl with hl | hl
        · obtain ⟨c2, hc2, hcl⟩ := h4 l hl
          exact ⟨c2, by simpa [createCartProduct] using hc2, hcl⟩
        · subst hl
          exact ⟨c, by simpa [createCartProduct] using hc, rfl⟩
      · intro l1 hl1 l2 hl2 hcid hpid
        simp only [createCartProduct, List.mem_append, List.mem_singleton] at hl1 hl2
        rcases hl1 with hl1 | hl1 <;> rcases hl2 with hl2 | hl2
        · exact h7 l1 hl1 l2 hl2 hcid hpid
        · subst hl2
          exact absurd ⟨hcid, hpid⟩ (hnomatch l1 hl1)
        · subst hl1
          exact absurd ⟨hcid.symm, hpid.symm⟩ (hnomatch l2 hl2)
        · subst hl1; subst hl2; rfl
    · simp only [hprod, if_false]
      exact ⟨h1, h2, h3, h4, h5, h6, h7⟩

/-- addToCart preserves the integrity properties. -/
theorem dbInv_addToCart (db : DB) (buyerId : Nat) (productId : Option Nat)
    (quantity : Option Int) (h : DBInv db) :
    DBInv (addToCart db buyerId productId quantity).2 := by
  unfold addToCart
  by_cases hg : addToCartInvalid productId quantity = true
  · simp only [hg, if_true]
    exact h
  · simp only [hg, if_false]
    cases hfc : findFirstCart db buyerId with
    | some c =>
      exact dbInv_addToCartLine db c _ quantity h (List.mem_of_find?_eq_some hfc)
    | none =>
      refine dbInv_addToCartLine _ _ _ quantity (dbInv_createCart db buyerId h hfc) ?_
      simp [createCart]

/-- Every state reachable from the empty store through the controller
operations satisfies the integrity properties. -/
theorem reachable_dbInv (db : DB) (h : Reachable db) : DBInv db := by
  induction h with
  | empty => exact dbInv_empty
  | addProduct db sellerId name category description price discount _ ih =>
    exact dbInv_addProduct db sellerId name category description price discount ih
  | editProduct db sellerId id body _ ih => exact dbInv_editProduct db sellerId id body ih
  | deleteProduct db sellerId id _ ih => exact dbInv_deleteProduct db sellerId id ih
  | addToCart db buyerId productId quantity _ ih =>
    exact dbInv_addToCart db buyerId productId quantity ih
  | removeFromCart db buyerId productId _ ih =>
    exact dbInv_removeFromCart db buyerId productId ih
  | clearCart db buyerId _ ih => exact dbInv_clearCart db buyerId ih

/-- Mapping a function that fixes every element of a list is the
identity on it. -/
theorem map_id_of_eq {α : Type} (l : List α) (f : α → α) (h : ∀ a ∈ l, f a = a) :
    l.map f = l := by
  induction l with
  | nil => rfl
  | cons a as ih =>
    simp only [List.map_cons]
    rw [h a (List.mem_cons_self a as), ih (fun x hx => h x (List.mem_cons_of_mem a hx))]

/-- Filtering a list extended with one matching element keeps exactly
that element when nothing in the prefix matches. -/
theorem filter_append_singleton_eq {α : Type} (l : List α) (p : α → Bool) (a : α)
    (hl : ∀ x ∈ l, p x = false) (ha : p a = true) :
    (l ++ [a]).filter p = [a] := by
  rw [List.filter_append]
  rw [List.filter_eq_nil_iff.mpr (fun x hx => by simp [hl x hx])]
  simp [ha]

/-- Incrementing the quantity of a line just appended, when no older
line shares its id, rewrites only that line. -/
theorem update_fresh_append (lines : List CartProduct) (l1 : CartProduct) (q : Int)
    (hid : ∀ l ∈ lines, l.id ≠ l1.id) :
    (lines ++ [l1]).map
        (fun l => if l.id == l1.id then { l with quantity := q } else l) =
      lines ++ [{ l1 with quantity := q }] := by
  rw [List.map_append]
  congr 1
  · apply map_id_of_eq
    intro a ha
    simp [hid a ha]
  · simp

/-- C1: in every reachable store no cart holds two lines for one
product, and from a state where the buyer's cart (if any) has no line
for an existing product, two addToCart calls with positive quantities
q1 and q2 leave exactly one line for that product, with quantity
q1 + q2. -/
theorem C1_merge_on_repeat_add (db : DB) (hreach : Reachable db) :
    linesPairUnique db ∧
    (∀ buyerId pid (q1 q2 : Int) (p : Product), 0 < q1 → 0 < q2 →
      findUniqueProduct db pid = some p →
      (∀ c, findFirstCart db buyerId = some c →
        findUniqueCartProduct db c.id pid = none) →
      ∃ c : Cart,
        findFirstCart (addToCart (addToCart db buyerId (some pid) (some q1)).2
            buyerId (some pid) (some q2)).2 buyerId = some c ∧
        ∃ l : CartProduct,
          (addToCart (addToCart db buyerId (some pid) (some q1)).2
              buyerId (some pid) (some q2)).2.cartProducts.filter
            (fun l2 => l2.cartId == c.id && l2.productId == pid) = [l] ∧
          l.quantity = q1 + q2) := by
  have hinv := reachable_dbInv db hreach
  refine ⟨hinv.pairUnique, ?_⟩
  intro buyerId pid q1 q2 p hq1 hq2 hprod hno
  have hpmem : p ∈ db.products := List.mem_of_find?_eq_some hprod
  have hpeq : p.id = pid := by simpa using List.find?_some hprod
  have hpid0 : pid ≠ 0 := by
    have := hinv.prodIdPos p hpmem
    omega
  have hguard1 : addToCartInvalid (some pid) (some q1) = false := by
    simp [addToCartInvalid, hpid0]
    omega
  have hguard2 : addToCartInvalid (some pid) (some q2) = false := by
    simp [addToCartInvalid, hpid0]
    omega
  have hjs : jsQtyOrOne (some q1) = q1 := by
    simp [jsQtyOrOne, show ¬(q1 = 0) by omega]
  cases hfc : findFirstCart db buyerId with
  | some c =>
    have hnoline := hno c hfc
    have hadd1 := addToCart_new_line db buyerId pid (some q1) c p hguard1 hfc hnoline hprod
    rw [hjs] at hadd1
    rw [hadd1]
    have hnolold : ∀ l ∈ db.cartProducts,
        (l.cartId == c.id && l.productId == pid) = false := by
      intro l hl
      have := List.find?_eq_none.mp hnoline l hl
      simpa using this
    have hfc1 : findFirstCart
        { db with
            cartProducts := db.cartProducts ++
              [⟨db.nextCartProductId, c.id, pid, q1⟩],
            nextCartProductId := db.nextCartProductId + 1 } buyerId = some c := hfc
    have hfound : findUniqueCartProduct
        { db with
            cartProducts := db.cartProducts ++
              [⟨db.nextCartProductId, c.id, pid, q1⟩],
            nextCartProductId := db.nextCartProductId + 1 } c.id pid =
        some ⟨db.nextCartProductId, c.id, pid, q1⟩ := by
      apply find?_append_singleton
      · exact List.find?_eq_none.mpr (fun l hl => by simp [hnolold l hl])
      · simp
    have hadd2 := addToCart_increment _ buyerId pid q2 c
      ⟨db.nextCartProductId, c.id, pid, q1⟩ hguard2 hfc1 hfound
    rw [hadd2]
    refine ⟨c, hfc, ?_⟩
    refine ⟨⟨db.nextCartProductId, c.id, pid, q1 + q2⟩, ?_, rfl⟩
    show ((db.cartProducts ++ [(⟨db.nextCartProductId, c.id, pid, q1⟩ : CartProduct)]).map
        (fun l => if l.id == db.nextCartProductId then
          { l with quantity := q1 + q2 } else l)).filter
        (fun l2 => l2.cartId == c.id && l2.productId == pid) =
      [(⟨db.nextCartProductId, c.id, pid, q1 + q2⟩ : CartProduct)]
    rw [update_fresh_append db.cartProducts ⟨db.nextCartProductId, c.id, pid, q1⟩
      (q1 + q2) (fun l hl => by
        have := hinv.lineIdLt l hl
        simp only []
        omega)]
    exact filter_append_singleton_eq _ _ _ hnolold (by simp)
  | none =>
    have hfresh : ∀ l ∈ db.cartProducts, l.cartId ≠ db.nextCartId := by
      intro l hl
      obtain ⟨c2, hc2, hcl⟩ := hinv.lineCartLive l hl
      have := hinv.cartIdLt c2 hc2
      omega
    have hadd1 := addToCart_first_add db buyerId pid (some q1) p hguard1 hfc hfresh hprod
    rw [hjs] at hadd1
    rw [hadd1]
    have hnolold : ∀ l ∈ db.cartProducts,
        (l.cartId == db.nextCartId && l.productId == pid) = false := by
      intro l hl
      simp [hfresh l hl]
    have hfc1 : findFirstCart
        { db with
            carts := db.carts ++ [⟨db.nextCartId, buyerId⟩],
            nextCartId := db.nextCartId + 1,
            cartProducts := db.cartProducts ++
              [⟨db.nextCartProductId, db.nextCartId, pid, q1⟩],
            nextCartProductId := db.nextCartProductId + 1 } buyerId =
        some ⟨db.nextCartId, buyerId⟩ := by
      apply find?_append_singleton
      · exact hfc
      · simp
    have hfound : findUniqueCartProduct
        { db with
            carts := db.carts ++ [⟨db.nextCartId, buyerId⟩],
            nextCartId := db.nextCartId + 1,
            cartProducts := db.cartProducts ++
              [⟨db.nextCartProductId, db.nextCartId, pid, q1⟩],
            nextCartProductId := db.nextCartProductId + 1 }
          (Cart.mk db.nextCartId buyerId).id pid =
        some ⟨db.nextCartProductId, db.nextCartId, pid, q1⟩ := by
      apply find?_append_singleton
      · exact List.find?_eq_none.mpr (fun l hl => by simp [hnolold l hl])
      · simp
    have hadd2 := addToCart_increment _ buyerId pid q2 ⟨db.nextCartId, buyerId⟩
      ⟨db.nextCartProductId, db.nextCartId, pid, q1⟩ hguard2 hfc1 hfound
    rw [hadd2]
    refine ⟨⟨db.nextCartId, buyerId⟩, ?_, ?_⟩
    · show ((db.carts ++ [(⟨db.nextCartId, buyerId⟩ : Cart)]).find?
          (fun c => c.buyerId == buyerId)) = some ⟨db.nextCartId, buyerId⟩
      apply find?_append_singleton
      · exact hfc
      · simp
    refine ⟨⟨db.nextCartProductId, db.nextCartId, pid, q1 + q2⟩, ?_, rfl⟩
    show ((db.cartProducts ++
          [(⟨db.nextCartProductId, db.nextCartId, pid, q1⟩ : CartProduct)]).map
        (fun l => if l.id == db.nextCartProductId then
          { l with quantity := q1 + q2 } else l)).filter
        (fun l2 => l2.cartId == db.nextCartId && l2.productId == pid) =
      [(⟨db.nextCartProductId, db.nextCartId, pid, q1 + q2⟩ : CartProduct)]
    rw [update_fresh_append db.cartProducts
      ⟨db.nextCartProductId, db.nextCartId, pid, q1⟩ (q1 + q2) (fun l hl => by
        have := hinv.lineIdLt l hl
        simp only []
        omega)]
    exact filter_append_singleton_eq _ _ _ hnolold (by simp)

/-- C1 witness: the invariant and double-add property at the
reachable store holding one product. -/
theorem C1_merge_witness :
    linesPairUnique (addProduct DB.empty 1 ("w") ("c") ("d") 5 0).2 ∧
    (∀ buyerId pid (q1 q2 : Int) (p : Product), 0 < q1 → 0 < q2 →
      findUniqueProduct (addProduct DB.empty 1 ("w") ("c") ("d") 5 0).2 pid = some p →
      (∀ c, findFirstCart (addProduct DB.empty 1 ("w") ("c") ("d") 5 0).2 buyerId =
          some c →
        findUniqueCartProduct (addProduct DB.empty 1 ("w") ("c") ("d") 5 0).2
          c.id pid = none) →
      ∃ c : Cart,
        findFirstCart (addToCart
            (addToCart (addProduct DB.empty 1 ("w") ("c") ("d") 5 0).2
              buyerId (some pid) (some q1)).2
            buyerId (some pid) (some q2)).2 buyerId = some c ∧
        ∃ l : CartProduct,
          (addToCart
              (addToCart (addProduct DB.empty 1 ("w") ("c") ("d") 5 0).2
                buyerId (some pid) (some q1)).2
              buyerId (some pid) (some q2)).2.cartProducts.filter
            (fun l2 => l2.cartId == c.id && l2.productId == pid) = [l] ∧
          l.quantity = q1 + q2) :=
  C1_merge_on_repeat_add (addProduct DB.empty 1 ("w") ("c") ("d") 5 0).2
    (Reachable.addProduct DB.empty 1 ("w") ("c") ("d") 5 0 Reachable.empty)

/-- Program counter of one in-flight addToCart request, one state per
await point of the controller: before the cart findFirst, before the
cart create, before the line findUnique, before the line
update/create, and done. -/
inductive AddPC where
  | start
  | needCreate
  | haveCart (c : Cart)
  | haveLine (c : Cart) (l : Option CartProduct)
  | finished (r : AddResult)
  deriving Repr, DecidableEq

/-- One in-flight addToCart request: its body and program counter. -/
structure AddCall where
  buyerId : Nat
  productId : Option Nat
  quantity : Option Int
  pc : AddPC
  deriving Repr, DecidableEq

/-- One atomic storage call of an in-flight addToCart, mirroring the
controller's awaits in order: the body validation (no storage touched)
folded into the first transition, cart findFirst, cart create, line
findUnique, then line update (read quantity already in hand) or line
create.  The create re-checks what the database itself enforces — the
product foreign key and the unique (cartId, productId) pair — and
fails (500) when violated; no transaction spans two steps, which is
exactly the read-then-write addToCart performs. -/
inductive AddStep : AddCall × DB → AddCall × DB → Prop where
  | rejected (t : AddCall) (db : DB) :
      t.pc = .start → addToCartInvalid t.productId t.quantity = true →
      AddStep (t, db) ({ t with pc := .finished .invalidInput }, db)
  | findCartHit (t : AddCall) (db : DB) (c : Cart) :
      t.pc = .start → addToCartInvalid t.productId t.quantity = false →
      findFirstCart db t.buyerId = some c →
      AddStep (t, db) ({ t with pc := .haveCart c }, db)
  | findCartMiss (t : AddCall) (db : DB) :
      t.pc = .start → addToCartInvalid t.productId t.quantity = false →
      findFirstCart db t.buyerId = none →
      AddStep (t, db) ({ t with pc := .needCreate }, db)
  | createCartStep (t : AddCall) (db : DB) :
      t.pc = .needCreate →
      AddStep (t, db)
        ({ t with pc := .haveCart (createCart db t.buyerId).1 },
         (createCart db t.buyerId).2)
  | findLineStep (t : AddCall) (db : DB) (c : Cart) :
      t.pc = .haveCart c →
      AddStep (t, db)
        ({ t with pc := (.haveLine c
            (findUniqueCartProduct db c.id (t.productId.getD 0))) }, db)
  | updateLineStep (t : AddCall) (db : DB) (c : Cart) (l : CartProduct) (q : Int) :
      t.pc = .haveLine c (some l) → t.quantity = some q →
      AddStep (t, db)
        ({ t with pc := .finished (.updated { l with quantity := l.quantity + q }) },
         updateCartProductQty db l.id (l.quantity + q))
  | updateLineNaN (t : AddCall) (db : DB) (c : Cart) (l : CartProduct) :
      t.pc = .haveLine c (some l) → t.quantity = none →
      AddStep (t, db) ({ t with pc := .finished .internalError }, db)
  | createLineStep (t : AddCall) (db : DB) (c : Cart) :
      t.pc = .haveLine c none →
      (findUniqueProduct db (t.productId.getD 0)).isSome = true →
      findUniqueCartProduct db c.id (t.productId.getD 0) = none →
      AddStep (t, db)
        ({ t with pc := (.finished (.created
            (createCartProduct db c.id (t.productId.getD 0)
              (jsQtyOrOne t.quantity)).1)) },
         (createCartProduct db c.id (t.productId.getD 0)
           (jsQtyOrOne t.quantity)).2)
  | createLineFail (t : AddCall) (db : DB) (c : Cart) :
      t.pc = .haveLine c none →
      ((findUniqueProduct db (t.productId.getD 0)).isSome = false ∨
        findUniqueCartProduct db c.id (t.productId.getD 0) ≠ none) →
      AddStep (t, db) ({ t with pc := .finished .internalError }, db)

/-- Two concurrent addToCart requests against one store: at each step
either request performs its next atomic storage call. -/
inductive RaceStep : AddCall × AddCall × DB → AddCall × AddCall × DB → Prop where
  | stepLeft {t1 t2 : AddCall} {db : DB} {u1 : AddCall} {db2 : DB} :
      AddStep (t1, db) (u1, db2) → RaceStep (t1, t2, db) (u1, t2, db2)
  | stepRight {t1 t2 : AddCall} {db : DB} {u2 : AddCall} {db2 : DB} :
      AddStep (t2, db) (u2, db2) → RaceStep (t1, t2, db) (t1, u2, db2)

/-- The store both racing calls start from: product 1 exists, buyer 1
has no cart. -/
def raceDB0 : DB := (addProduct DB.empty 2 ("w") ("c") ("d") 5 0).2

/-- Both racing requests: buyer 1 adds product 1 with quantity 1. -/
def raceCall : AddCall := ⟨1, some 1, some 1, AddPC.start⟩

/-- The store after the racy interleaving: two Cart rows for buyer 1,
each with its own line of quantity 1. -/
def raceDBFinal : DB :=
  ⟨[⟨1, ("w"), ("c"), ("d"), 5, 0, 2⟩], [⟨1, 1⟩, ⟨2, 1⟩],
   [⟨1, 1, 1, 1⟩, ⟨2, 2, 1, 1⟩], 2, 3, 3⟩

/-- C5: an interleaving of the two concurrent addToCart calls in which
both findFirst reads run before either cart create.  Both requests
finish as successful creations, yet the store ends with two Cart rows
for the one buyer and every line at quantity 1 — not the one cart and
one line of quantity 2 the claim requires; the read-then-write
sequences of addToCart are not atomic. -/
theorem C5_duplicate_cart_race :
    Relation.ReflTransGen RaceStep (raceCall, raceCall, raceDB0)
      (⟨1, some 1, some 1, AddPC.finished (AddResult.created ⟨1, 1, 1, 1⟩)⟩,
       ⟨1, some 1, some 1, AddPC.finished (AddResult.created ⟨2, 2, 1, 1⟩)⟩,
       raceDBFinal) ∧
    (raceDBFinal.carts.filter (fun c => c.buyerId == 1)).length = 2 ∧
    (∀ l ∈ raceDBFinal.cartProducts, l.quantity = 1) := by
  refine ⟨?_, by decide, by decide⟩
  apply Relation.ReflTransGen.head
    (RaceStep.stepLeft (AddStep.findCartMiss _ _ rfl (by decide) (by decide)))
  apply Relation.ReflTransGen.head
    (RaceStep.stepRight (AddStep.findCartMiss _ _ rfl (by decide) (by decide)))
  apply Relation.ReflTransGen.head
    (RaceStep.stepLeft (AddStep.createCartStep _ _ rfl))
  apply Relation.ReflTransGen.head
    (RaceStep.stepRight (AddStep.createCartStep _ _ rfl))
  apply Relation.ReflTransGen.head
    (RaceStep.stepLeft (AddStep.findLineStep _ _ _ rfl))
  apply Relation.ReflTransGen.head
    (RaceStep.stepLeft (AddStep.createLineStep _ _ _ rfl (by decide) (by decide)))
  apply Relation.ReflTransGen.head
    (RaceStep.stepRight (AddStep.findLineStep _ _ _ rfl))
  apply Relation.ReflTransGen.head
    (RaceStep.stepRight (AddStep.createLineStep _ _ _ rfl (by decide) (by decide)))
  exact Relation.ReflTransGen.refl
